import Mathlib

/-
Verification of the `shell::InteractiveShell` PTY session manager
(src/InteractiveShell.cpp, src/InteractiveShell.h).

The embedding models each member function as a pure function from the
object state (plus oracles for the operating-system results: fork result,
write result, poll events, child liveness) to the successor state together
with a trace of observable effects, in the order the source performs them.
A separate, finer-grained interleaving model covers the concurrency claim
about `StopShell` racing the reader thread.
-/

namespace shell

/-- Linux signal numbers: the source uses SIGHUP(1), SIGINT(2), SIGKILL(9),
SIGTERM(15), SIGWINCH(28), and signal 0 as a liveness probe. -/
def SIGHUP : Nat := 1

def SIGINT : Nat := 2

def SIGKILL : Nat := 9

def SIGTERM : Nat := 15

def SIGWINCH : Nat := 28

/-- errno for a non-blocking descriptor that would block.  On Linux
`EWOULDBLOCK` has the same value as `EAGAIN`; the source tests both. -/
def EAGAIN : Nat := 11

def EWOULDBLOCK : Nat := 11

/-- The fixed literal tag `"ISHELL_OUTPUT:"` prepended to every callback
message by the source. -/
def msgTag : String := "ISHELL_OUTPUT:"

/-- A content chunk as delivered to the callback by `ReaderThreadFunc`:
`m_callback("ISHELL_OUTPUT:" + chunk)`. -/
def contentMsg (chunk : String) : String := msgTag ++ chunk

/-- Startup notice emitted at the end of a successful `StartShell`. -/
def startNotice : String := "ISHELL_OUTPUT:[*] PTY shell started (bash/sh)\n"

/-- Failure notice emitted by `StartShell` when `forkpty` fails. -/
def spawnFailNotice : String := "ISHELL_OUTPUT:[!] forkpty failed\n"

/-- Termination notice emitted at the end of `StopShell`. -/
def terminatedNotice : String := "ISHELL_OUTPUT:[*] Shell terminated\n"

/-- Closed notice emitted when `ReaderThreadFunc` exits its loop. -/
def closedNotice : String := "ISHELL_OUTPUT:[*] PTY closed\n"

/-- The lifecycle notices (start, spawn failure, termination, reader close),
as opposed to raw content chunks. -/
def lifecycleNotices : List String :=
  [startNotice, spawnFailNotice, terminatedNotice, closedNotice]

/-- Mirror of the mutable members of `shell::InteractiveShell`.
`m_callback` records whether a (non-null) callback is installed, matching the
`if (m_callback)` guards; `readerJoinable`/`signalJoinable` record whether the
two `std::thread` members are joinable (started, not yet joined). -/
structure ShellState where
  m_running : Bool
  m_child_pid : Int
  m_master_fd : Int
  m_cols : Int
  m_rows : Int
  m_resize_pending : Bool
  m_callback : Bool
  readerJoinable : Bool
  signalJoinable : Bool
deriving DecidableEq, Repr

/-- Freshly constructed object: member initializers of `InteractiveShell`. -/
def initState : ShellState :=
  { m_running := false, m_child_pid := -1, m_master_fd := -1,
    m_cols := 80, m_rows := 24, m_resize_pending := false,
    m_callback := false, readerJoinable := false, signalJoinable := false }

/-- Observable effects, in source order: callback invocations, descriptor
writes/closes, signals, sleeps, child reaping, thread spawns/joins, the
`SIGWINCH` handler installation, `ioctl(TIOCSWINSZ)`, `fcntl(O_NONBLOCK)`,
and stores to the atomic `m_running` flag (recorded so that ordering claims
about the flag can be stated). -/
inductive Effect where
  | setRunning (b : Bool)
  | sink (msg : String)
  | fdWrite (fd : Int) (data : String)
  | signal (pid : Int) (sig : Nat)
  | sleepUsec (n : Nat)
  | reap (pid : Int)
  | closeFd (fd : Int)
  | joinReader
  | joinSignal
  | spawnReader
  | spawnSignalFwd
  | installWinchHandler
  | setWinsize (fd : Int) (col : Nat) (row : Nat)
  | setNonblock (fd : Int)
deriving DecidableEq, Repr

/-- The callback invocations contained in an effect trace. -/
def sinkMsgs (effs : List Effect) : List String :=
  effs.filterMap fun e =>
    match e with
    | Effect.sink m => some m
    | _ => none

/-- `static_cast<unsigned short>` of a C++ `int`: reduction modulo `2^16`
(the conversion to an unsigned type is defined as value mod 2^N). -/
def ushortOfInt (x : Int) : Nat := (x % 65536).toNat

/-- The body of `WriteToShell` before the `write` call:
`if (!data.empty() && data.back() != '\n') data += '\n';`.
(`back()` of a non-empty `std::string` is its last character.) -/
def prepareData (command : String) : String :=
  if command ≠ "" ∧ command.data.getLast? ≠ some '\n' then command ++ "\n"
  else command

/-- Result of the `write(2)` call in `WriteToShell`: either `n ≥ 0` bytes
written, or `n < 0` with the given `errno`. -/
inductive WriteResult where
  | ok (n : Nat)
  | err (errno : Nat)
deriving DecidableEq, Repr

/-- Result of the `read(2)` call in `ReaderThreadFunc`: end of stream
(`n == 0`), an error with the given `errno` (`n < 0`), or `n > 0` bytes. -/
inductive ReadOutcome where
  | eof
  | rerr (errno : Nat)
  | chunk (data : String)
deriving DecidableEq, Repr

/-- Outcome of one `poll` call in the reader loop: `poll < 0` with
`errno == EINTR`, `poll < 0` with another errno, timeout (`poll == 0`),
an error/hangup condition (`POLLERR|POLLHUP|POLLNVAL`), or `POLLIN`
followed by the given read outcome. -/
inductive PollEvent where
  | perrIntr
  | perrOther
  | timeout
  | hupOrErr
  | readable (r : ReadOutcome)
deriving DecidableEq, Repr

/-- `InteractiveShell::StopShell`. `childAlive` is the result of the
`kill(m_child_pid, 0) == 0` liveness probe after the 200ms grace sleep.
Source order: early return when not running; clear `m_running`; if a child
exists send SIGTERM, sleep 200000us, probe, SIGKILL if still alive, reap,
clear the pid; if the master descriptor is valid close it and set it to -1;
join the reader thread then the signal thread when joinable; emit the
termination notice through the callback. -/
def StopShell (s : ShellState) (childAlive : Bool) : ShellState × List Effect :=
  if s.m_running = false then (s, [])
  else
    ({ s with m_running := false,
              m_child_pid := if 0 < s.m_child_pid then -1 else s.m_child_pid,
              m_master_fd := if 0 ≤ s.m_master_fd then -1 else s.m_master_fd,
              readerJoinable := false, signalJoinable := false },
     Effect.setRunning false ::
       ((if 0 < s.m_child_pid then
           [Effect.signal s.m_child_pid SIGTERM, Effect.sleepUsec 200000,
            Effect.signal s.m_child_pid 0] ++
           (if childAlive then [Effect.signal s.m_child_pid SIGKILL] else []) ++
           [Effect.reap s.m_child_pid]
         else []) ++
        (if 0 ≤ s.m_master_fd then [Effect.closeFd s.m_master_fd] else []) ++
        (if s.readerJoinable then [Effect.joinReader] else []) ++
        (if s.signalJoinable then [Effect.joinSignal] else []) ++
        (if s.m_callback then [Effect.sink terminatedNotice] else [])))

/-- `InteractiveShell::StartShell`, parent side.  `cb` is whether the caller
passed a non-null callback; `forkRes` is the value returned by `forkpty`
(negative on failure, the child pid — positive — in the parent on success;
the child branch is modelled separately by `childBranch`); `newFd` is the
master descriptor stored by `forkpty` on success. -/
def StartShell (s : ShellState) (cb : Bool) (forkRes : Int) (newFd : Int) :
    ShellState × List Effect :=
  if s.m_running = true then (s, [])
  else if forkRes < 0 then
    ({ s with m_callback := cb, m_running := false, m_child_pid := forkRes },
     [Effect.setRunning true, Effect.setRunning false] ++
       (if cb then [Effect.sink spawnFailNotice] else []))
  else
    ({ s with m_callback := cb, m_running := true, m_child_pid := forkRes,
              m_master_fd := newFd, readerJoinable := true, signalJoinable := true },
     [Effect.setRunning true, Effect.setNonblock newFd, Effect.spawnReader,
      Effect.spawnSignalFwd, Effect.installWinchHandler] ++
       (if cb then [Effect.sink startNotice] else []))

/-- `InteractiveShell::WriteToShell`.  `wr` is the result of the `write`
call; `childAlive` feeds the `StopShell` triggered on a fatal error. -/
def WriteToShell (s : ShellState) (command : String) (wr : WriteResult)
    (childAlive : Bool) : ShellState × List Effect :=
  if s.m_running = false ∨ s.m_master_fd < 0 then (s, [])
  else
    match wr with
    | WriteResult.ok _ => (s, [Effect.fdWrite s.m_master_fd (prepareData command)])
    | WriteResult.err e =>
      if e ≠ EAGAIN ∧ e ≠ EWOULDBLOCK then
        ((StopShell s childAlive).1,
         Effect.fdWrite s.m_master_fd (prepareData command) :: (StopShell s childAlive).2)
      else (s, [Effect.fdWrite s.m_master_fd (prepareData command)])

/-- `InteractiveShell::NotifyResize`. -/
def NotifyResize (s : ShellState) (cols rows : Int) : ShellState × List Effect :=
  if s.m_running = false ∨ s.m_master_fd < 0 then (s, [])
  else
    ({ s with m_cols := cols, m_rows := rows },
     [Effect.setWinsize s.m_master_fd (ushortOfInt cols) (ushortOfInt rows)] ++
       (if 0 < s.m_child_pid then [Effect.signal s.m_child_pid SIGWINCH] else []))

/-- `InteractiveShell::SigwinchHandler` acting on the active instance:
sets `m_resize_pending` only. -/
def SigwinchHandler (s : ShellState) : ShellState :=
  { s with m_resize_pending := true }

/-- The `while (m_running)` loop body of `ReaderThreadFunc`, driven by the
sequence of poll outcomes.  The loop mutates no member, so only the emitted
effects are produced; an empty remaining event list stands for the loop
still running when the flag is cleared externally. -/
def ReaderLoopAux (s : ShellState) : List PollEvent → List Effect
  | [] => []
  | ev :: rest =>
    if s.m_running = false then []
    else
      match ev with
      | PollEvent.perrIntr => ReaderLoopAux s rest
      | PollEvent.perrOther => []
      | PollEvent.timeout => ReaderLoopAux s rest
      | PollEvent.hupOrErr => []
      | PollEvent.readable ReadOutcome.eof => []
      | PollEvent.readable (ReadOutcome.rerr e) =>
        if e = EAGAIN ∨ e = EWOULDBLOCK then ReaderLoopAux s rest else []
      | PollEvent.readable (ReadOutcome.chunk c) =>
        (if s.m_callback then [Effect.sink (contentMsg c)] else []) ++
          ReaderLoopAux s rest

/-- `InteractiveShell::ReaderThreadFunc`: the poll loop, then the clean-exit
epilogue — `m_running = false` and the closed notice. -/
def ReaderThreadFunc (s : ShellState) (events : List PollEvent) :
    ShellState × List Effect :=
  ({ s with m_running := false },
   ReaderLoopAux s events ++ [Effect.setRunning false] ++
     (if s.m_callback then [Effect.sink closedNotice] else []))

/-- Outcome of the child branch after `fork`: either the process image was
replaced (`execve` succeeded) with the given path, argument list and
environment, or the child exited with the given status. -/
inductive ChildOutcome where
  | replaced (path : String) (argv : List String) (env : List String)
  | exited (status : Nat)
deriving DecidableEq, Repr

/-- The child branch of `StartShell` (`m_child_pid == 0`): probe
`/bin/bash` with `access(shell, X_OK)` (`accessXOk p` is true when the call
returned 0), fall back to `/bin/sh`, build `argv = {shell, nullptr}`, call
`execve(shell, argv, environ)` and `_exit(127)` if it returns.  `env` is the
parent's `environ`; `execOk` tells whether the `execve` call succeeded. -/
def childBranch (env : List String) (accessXOk : String → Bool)
    (execOk : String → List String → List String → Bool) : ChildOutcome :=
  let shell0 := "/bin/bash"
  let shell1 := if accessXOk shell0 then shell0 else "/bin/sh"
  let argv := [shell1]
  if execOk shell1 argv env then ChildOutcome.replaced shell1 argv env
  else ChildOutcome.exited 127

/-- A quiescent step of the session: one complete member-function call (or
the reader thread running to completion).  `forkpty` never returns 0 in the
parent (0 identifies the child branch) and stores a valid descriptor on
success; the reader thread only runs when it has been started. -/
inductive QStep : ShellState → ShellState → Prop where
  | start (s : ShellState) (cb : Bool) (forkRes newFd : Int)
      (hfr : forkRes ≠ 0) (hfd : 0 < forkRes → 0 ≤ newFd) :
      QStep s (StartShell s cb forkRes newFd).1
  | stop (s : ShellState) (childAlive : Bool) :
      QStep s (StopShell s childAlive).1
  | writeOp (s : ShellState) (command : String) (wr : WriteResult) (childAlive : Bool) :
      QStep s (WriteToShell s command wr childAlive).1
  | resize (s : ShellState) (cols rows : Int) :
      QStep s (NotifyResize s cols rows).1
  | reader (s : ShellState) (events : List PollEvent)
      (h : s.readerJoinable = true) :
      QStep s (ReaderThreadFunc s events).1
  | winch (s : ShellState) :
      QStep s (SigwinchHandler s)

/-- Session states reachable from a freshly constructed object by quiescent
steps. -/
inductive QReach : ShellState → Prop where
  | init : QReach initState
  | step {s t : ShellState} : QReach s → QStep s t → QReach t

/-- A running session as produced by a successful `StartShell` (pid 5,
master descriptor 3) on a fresh object. -/
def runningS : ShellState := (StartShell initState true 5 3).1

/-- The state after the reader thread of `runningS` exits on a hangup:
`m_running` is cleared but `m_child_pid` and `m_master_fd` are untouched. -/
def c4state : ShellState :=
  (ReaderThreadFunc runningS [PollEvent.hupOrErr]).1

/-
Interleaving model for the `StopShell` / reader-thread race (claim about
closing the master descriptor).  One stop call and the reader thread run
concurrently; `stopPc` is the stop call's program counter (0 entry, 1 after
clearing `m_running`, 2 after the child signalling block, 3 after
`close(m_master_fd)`, 4 after the joins) and `readerAt` the reader's
position (0 at the `while (m_running)` test, 1 between a successful test
and the `poll`/`read` access to the descriptor).
-/

/-- Joint state of the stop caller and the reader thread. -/
structure CState where
  running : Bool
  fdClosed : Bool
  readerDone : Bool
  stopPc : Nat
  readerAt : Nat
deriving DecidableEq, Repr

/-- Start of the race: session running, descriptor open, reader at the loop
head, `StopShell` just entered (its `m_running` guard already passed). -/
def cInit : CState :=
  { running := true, fdClosed := false, readerDone := false,
    stopPc := 0, readerAt := 0 }

/-- Interleaved small steps.  `stopClear`/`stopChild`/`stopClose`/`stopJoin`
are the successive blocks of `StopShell` (the join blocks until the reader
is done).  `readerTest` is the reader passing the `while (m_running)` test,
`readerTouch` the subsequent `poll`/`read` on the master descriptor, and
`readerExitStep` the loop exit once the flag reads false. -/
inductive CStep : CState → CState → Prop where
  | stopClear (s : CState) (h : s.stopPc = 0) (hr : s.running = true) :
      CStep s { s with running := false, stopPc := 1 }
  | stopChild (s : CState) (h : s.stopPc = 1) :
      CStep s { s with stopPc := 2 }
  | stopClose (s : CState) (h : s.stopPc = 2) :
      CStep s { s with fdClosed := true, stopPc := 3 }
  | stopJoin (s : CState) (h : s.stopPc = 3) (hd : s.readerDone = true) :
      CStep s { s with stopPc := 4 }
  | readerTest (s : CState) (h : s.readerAt = 0) (hd : s.readerDone = false)
      (hr : s.running = true) :
      CStep s { s with readerAt := 1 }
  | readerTouch (s : CState) (h : s.readerAt = 1) (hd : s.readerDone = false) :
      CStep s { s with readerAt := 0 }
  | readerExitStep (s : CState) (h : s.readerAt = 0) (hd : s.readerDone = false)
      (hr : s.running = false) :
      CStep s { s with readerDone := true }

/-- States reachable in the interleaving model. -/
inductive CReach : CState → Prop where
  | init : CReach cInit
  | step {s t : CState} : CReach s → CStep s t → CReach t

/-- Reachable racy state: the reader passed the running test, then the stop
call ran through closing the descriptor — descriptor closed, reader not yet
finished, and about to touch the descriptor. -/
def cBad : CState :=
  { running := false, fdClosed := true, readerDone := false,
    stopPc := 3, readerAt := 1 }

/-- `p` is a literal prefix of `m`. -/
def isPrefixStr (p m : String) : Prop := ∃ r, m = p ++ r

/-- Formalisation of the prefix-separation claim for sink strings: some
fixed literal prefix lets a consumer separate content chunks
(`contentMsg c` for arbitrary child output `c`) from the lifecycle notices —
either the prefix is present on exactly one of the two categories, or the
two categories carry distinct prefixes with at least one of them exclusive
to its category (without exclusivity no separation is possible, which is
the purpose the claim states). -/
def separatesByPrefixClaim : Prop :=
  (∃ p, (∀ m ∈ lifecycleNotices, isPrefixStr p m) ∧
        (∀ c : String, ¬ isPrefixStr p (contentMsg c))) ∨
  (∃ p, (∀ c : String, isPrefixStr p (contentMsg c)) ∧
        (∀ m ∈ lifecycleNotices, ¬ isPrefixStr p m)) ∨
  (∃ p1 p2, p1 ≠ p2 ∧ (∀ m ∈ lifecycleNotices, isPrefixStr p1 m) ∧
    (∀ c : String, isPrefixStr p2 (contentMsg c)) ∧
    ((∀ c : String, ¬ isPrefixStr p1 (contentMsg c)) ∨
     (∀ m ∈ lifecycleNotices, ¬ isPrefixStr p2 m)))

/-- A sink string carries the fixed tag `"ISHELL_OUTPUT:"`. -/
def Tagged (msg : String) : Prop := ∃ rest, msg = msgTag ++ rest

theorem stopShell_of_not_running (s : ShellState) (a : Bool)
    (h : s.m_running = false) : StopShell s a = (s, []) := by
  simp [StopShell, h]

theorem stopShell_not_running (s : ShellState) (a : Bool) :
    (StopShell s a).1.m_running = false := by
  unfold StopShell
  split <;> simp_all

/-- C1: on a running session, `WriteToShell` appends exactly one newline to
a string that lacks one — as the claim extends this to the empty string, it
fails there: the source guards on `!data.empty()`, so the empty string is
written unchanged (no terminator appended) even though it does not end with
a newline. -/
theorem C1_counterexample :
    ("" : String).data.getLast? ≠ some '\n' ∧
    (WriteToShell runningS "" (WriteResult.ok 0) false).2 = [Effect.fdWrite 3 ""] ∧
    (WriteToShell runningS "" (WriteResult.ok 0) false).2 ≠
      [Effect.fdWrite 3 ("" ++ "\n")] := by
  decide

/-- C1 (amended): on a running session the bytes handed to `write` are
`prepareData command`; for every NON-EMPTY string without a trailing
newline exactly one newline is appended, a string already ending in a
newline is passed unchanged, and the empty string is passed unchanged. -/
theorem C1_amended (s : ShellState) (command : String) (wr : WriteResult)
    (a : Bool) (hrun : s.m_running = true) (hfd : 0 ≤ s.m_master_fd) :
    (WriteToShell s command wr a).2.head? =
      some (Effect.fdWrite s.m_master_fd (prepareData command)) ∧
    (command ≠ "" → command.data.getLast? ≠ some '\n' →
      prepareData command = command ++ "\n") ∧
    (command.data.getLast? = some '\n' → prepareData command = command) ∧
    prepareData "" = "" := by
  refine ⟨?_, ?_, ?_, by decide⟩
  · have hg : ¬ (s.m_running = false ∨ s.m_master_fd < 0) := by
      simp [hrun, Int.not_lt.mpr hfd]
    cases wr with
    | ok n => simp [WriteToShell, hg]
    | err e =>
      by_cases he : e ≠ EAGAIN ∧ e ≠ EWOULDBLOCK <;>
        simp [WriteToShell, hg, he]
  · intro h1 h2
    simp [prepareData, h1, h2]
  · intro h1
    simp [prepareData, h1]

/-- C1 amended, exercised at a concrete input: writing `"ls"` on the
running session transmits `"ls\n"`. -/
theorem C1_amended_witness :
    (WriteToShell runningS "ls" (WriteResult.ok 3) false).2.head? =
      some (Effect.fdWrite 3 (prepareData "ls")) ∧
    prepareData "ls" = "ls" ++ "\n" := by
  have h := C1_amended runningS "ls" (WriteResult.ok 3) false (by decide) (by decide)
  exact ⟨by simpa using h.1, h.2.1 (by decide) (by decide)⟩

/-- C6: `WriteToShell`, `NotifyResize` and `StopShell` on a session whose
running flag is false leave the state unchanged and produce no effect (no
descriptor write, no signal, no sink emission); in particular the second of
two consecutive `StopShell` calls is a no-op. -/
theorem C6_noop (s : ShellState) (command : String) (wr : WriteResult)
    (a a' : Bool) (cols rows : Int) (h : s.m_running = false) :
    WriteToShell s command wr a = (s, []) ∧
    NotifyResize s cols rows = (s, []) ∧
    StopShell s a = (s, []) ∧
    (∀ t : ShellState, ∀ b : Bool,
      StopShell (StopShell t b).1 a' = ((StopShell t b).1, [])) := by
  refine ⟨?_, ?_, stopShell_of_not_running s a h, ?_⟩
  · simp [WriteToShell, h]
  · simp [NotifyResize, h]
  · intro t b
    exact stopShell_of_not_running _ _ (stopShell_not_running t b)

/-- C6, exercised on the never-started initial state. -/
theorem C6_noop_witness :
    WriteToShell initState "ls" (WriteResult.ok 0) true = (initState, []) ∧
    NotifyResize initState 120 40 = (initState, []) ∧
    StopShell initState true = (initState, []) := by
  have h := C6_noop initState "ls" (WriteResult.ok 0) true true 120 40 rfl
  exact ⟨h.1, h.2.1, h.2.2.1⟩

/-- C7: on a running session, a failed descriptor write with an errno other
than EAGAIN/EWOULDBLOCK triggers the full `StopShell` sequence (the state
becomes the stop state, not running, and the stop trace follows the write);
a would-block failure produces no stop and leaves the session running. -/
theorem C7_write_failure (s : ShellState) (command : String) (e : Nat)
    (a : Bool) (hrun : s.m_running = true) (hfd : 0 ≤ s.m_master_fd) :
    (e ≠ EAGAIN ∧ e ≠ EWOULDBLOCK →
      WriteToShell s command (WriteResult.err e) a =
        ((StopShell s a).1,
         Effect.fdWrite s.m_master_fd (prepareData command) ::
           (StopShell s a).2) ∧
      (WriteToShell s command (WriteResult.err e) a).1.m_running = false) ∧
    (e = EAGAIN ∨ e = EWOULDBLOCK →
      WriteToShell s command (WriteResult.err e) a =
        (s, [Effect.fdWrite s.m_master_fd (prepareData command)]) ∧
      (WriteToShell s command (WriteResult.err e) a).1.m_running = true) := by
  have hg : ¬ (s.m_running = false ∨ s.m_master_fd < 0) := by
    simp [hrun, Int.not_lt.mpr hfd]
  constructor
  · intro he
    have heq : WriteToShell s command (WriteResult.err e) a =
        ((StopShell s a).1,
         Effect.fdWrite s.m_master_fd (prepareData command) ::
           (StopShell s a).2) := by
      simp [WriteToShell, hg, he]
    refine ⟨heq, ?_⟩
    rw [heq]
    exact stopShell_not_running s a
  · intro he
    have he' : ¬ (e ≠ EAGAIN ∧ e ≠ EWOULDBLOCK) := by
      rcases he with h | h <;> simp [h, EAGAIN, EWOULDBLOCK]
    have heq : WriteToShell s command (WriteResult.err e) a =
        (s, [Effect.fdWrite s.m_master_fd (prepareData command)]) := by
      simp [WriteToShell, hg, he']
    exact ⟨heq, by rw [heq]; exact hrun⟩

/-- C7, exercised: a write failing with EIO (5) on the running session
stops it; a write failing with EAGAIN leaves it running. -/
theorem C7_write_failure_witness :
    (WriteToShell runningS "ls" (WriteResult.err 5) false).1.m_running = false ∧
    (WriteToShell runningS "ls" (WriteResult.err EAGAIN) false).1.m_running = true := by
  have h1 := C7_write_failure runningS "ls" 5 false (by decide) (by decide)
  have h2 := C7_write_failure runningS "ls" EAGAIN false (by decide) (by decide)
  exact ⟨(h1.1 (by decide)).2, (h2.2 (Or.inl rfl)).2⟩

/-- C8: when `forkpty` fails, `StartShell` leaves the session not running,
launches neither the reader nor the signal-forwarder thread, and reports
the failure notice through the sink. -/
theorem C8_spawn_failure (s : ShellState) (forkRes newFd : Int)
    (h : s.m_running = false) (hfr : forkRes < 0) :
    (StartShell s true forkRes newFd).1.m_running = false ∧
    Effect.spawnReader ∉ (StartShell s true forkRes newFd).2 ∧
    Effect.spawnSignalFwd ∉ (StartShell s true forkRes newFd).2 ∧
    Effect.sink spawnFailNotice ∈ (StartShell s true forkRes newFd).2 := by
  simp [StartShell, h, hfr]

/-- C8, exercised with `forkpty` returning -1 on a fresh session. -/
theorem C8_spawn_failure_witness :
    (StartShell initState true (-1) (-1)).1.m_running = false ∧
    Effect.spawnReader ∉ (StartShell initState true (-1) (-1)).2 ∧
    Effect.sink spawnFailNotice ∈ (StartShell initState true (-1) (-1)).2 := by
  have h := C8_spawn_failure initState (-1) (-1) rfl (by decide)
  exact ⟨h.1, h.2.1, h.2.2.2⟩

/-- C9: the child branch probes `/bin/bash` for executability, falls back
to `/bin/sh` otherwise, execs the chosen shell with an argument list
holding only the shell path and the parent environment unmodified, and
exits with the distinguished nonzero status 127 if the replacement
fails. -/
theorem C9_child_exec (env : List String) (accessXOk : String → Bool)
    (execOk : String → List String → List String → Bool) :
    (accessXOk "/bin/bash" = true →
      childBranch env accessXOk execOk =
        (if execOk "/bin/bash" ["/bin/bash"] env then
           ChildOutcome.replaced "/bin/bash" ["/bin/bash"] env
         else ChildOutcome.exited 127)) ∧
    (accessXOk "/bin/bash" = false →
      childBranch env accessXOk execOk =
        (if execOk "/bin/sh" ["/bin/sh"] env then
           ChildOutcome.replaced "/bin/sh" ["/bin/sh"] env
         else ChildOutcome.exited 127)) ∧
    (127 : Nat) ≠ 0 := by
  refine ⟨?_, ?_, by decide⟩
  · intro h
    simp [childBranch, h]
  · intro h
    simp [childBranch, h]

/-- C9, exercised: `/bin/bash` executable and exec succeeding replaces the
image with `/bin/bash` and argv `["/bin/bash"]`; a failing exec after
falling back to `/bin/sh` exits with status 127. -/
theorem C9_child_exec_witness :
    childBranch ["HOME=/root"] (fun _ => true) (fun _ _ _ => true) =
      ChildOutcome.replaced "/bin/bash" ["/bin/bash"] ["HOME=/root"] ∧
    childBranch ["HOME=/root"] (fun _ => false) (fun _ _ _ => false) =
      ChildOutcome.exited 127 := by
  have h1 := C9_child_exec ["HOME=/root"] (fun _ => true) (fun _ _ _ => true)
  have h2 := C9_child_exec ["HOME=/root"] (fun _ => false) (fun _ _ _ => false)
  exact ⟨by simpa using h1.1 rfl, by simpa using h2.2.1 rfl⟩

/-- C10: on a running session `NotifyResize` stores the full signed
arguments in `m_cols`/`m_rows`, while the window-size metadata written by
the `ioctl` holds the arguments cast to `unsigned short`, i.e. reduced
modulo `2^16`; for arguments in `[0, 65535]` the metadata equals the
arguments exactly. -/
theorem C10_resize (s : ShellState) (cols rows : Int)
    (hrun : s.m_running = true) (hfd : 0 ≤ s.m_master_fd) :
    (NotifyResize s cols rows).1.m_cols = cols ∧
    (NotifyResize s cols rows).1.m_rows = rows ∧
    (NotifyResize s cols rows).2.head? =
      some (Effect.setWinsize s.m_master_fd (ushortOfInt cols) (ushortOfInt rows)) ∧
    (ushortOfInt cols : Int) = cols % 65536 ∧
    (ushortOfInt rows : Int) = rows % 65536 ∧
    (0 ≤ cols → cols ≤ 65535 → (ushortOfInt cols : Int) = cols) ∧
    (0 ≤ rows → rows ≤ 65535 → (ushortOfInt rows : Int) = rows) := by
  have hg : ¬ (s.m_running = false ∨ s.m_master_fd < 0) := by
    simp [hrun, Int.not_lt.mpr hfd]
  have hmod : ∀ x : Int, (ushortOfInt x : Int) = x % 65536 := by
    intro x
    exact Int.toNat_of_nonneg (Int.emod_nonneg x (by norm_num))
  have hexact : ∀ x : Int, 0 ≤ x → x ≤ 65535 → (ushortOfInt x : Int) = x := by
    intro x h0 h1
    rw [hmod x]
    exact Int.emod_eq_of_lt h0 (by omega)
  refine ⟨?_, ?_, ?_, hmod cols, hmod rows,
    fun h0 h1 => hexact cols h0 h1, fun h0 h1 => hexact rows h0 h1⟩ <;>
    simp [NotifyResize, hg]

/-- C2: on a running session with a child and valid descriptor, the
`StopShell` trace is exactly: clear the running flag, SIGTERM the child,
sleep the 200ms grace interval, probe with signal 0, SIGKILL only if the
child is still alive, reap, close the master descriptor, join the reader
then the signal-forwarder thread, and finally emit the termination
notice. -/
theorem C2_stop_order (s : ShellState) (alive : Bool)
    (hrun : s.m_running = true) (hpid : 0 < s.m_child_pid)
    (hfd : 0 ≤ s.m_master_fd) (hcb : s.m_callback = true)
    (hrj : s.readerJoinable = true) (hsj : s.signalJoinable = true) :
    (StopShell s alive).2 =
      [Effect.setRunning false, Effect.signal s.m_child_pid SIGTERM,
       Effect.sleepUsec 200000, Effect.signal s.m_child_pid 0] ++
      (if alive then [Effect.signal s.m_child_pid SIGKILL] else []) ++
      [Effect.reap s.m_child_pid, Effect.closeFd s.m_master_fd,
       Effect.joinReader, Effect.joinSignal, Effect.sink terminatedNotice] := by
  cases alive <;> simp [StopShell, hrun, hpid, hfd, hcb, hrj, hsj]

/-- C2, exercised on the running session with the child still alive after
the grace interval. -/
theorem C2_stop_order_witness :
    (StopShell runningS true).2 =
      [Effect.setRunning false, Effect.signal 5 SIGTERM, Effect.sleepUsec 200000,
       Effect.signal 5 0, Effect.signal 5 SIGKILL, Effect.reap 5,
       Effect.closeFd 3, Effect.joinReader, Effect.joinSignal,
       Effect.sink terminatedNotice] := by
  have h := C2_stop_order runningS true (by decide) (by decide) (by decide)
    (by decide) (by decide) (by decide)
  rw [h]
  decide

theorem qreach_runningS : QReach runningS :=
  QReach.step QReach.init
    (QStep.start initState true 5 3 (by decide) (fun _ => by decide))

theorem qreach_c4state : QReach c4state :=
  QReach.step qreach_runningS
    (QStep.reader runningS [PollEvent.hupOrErr] (by decide))

/-- C4: the claimed equivalence `running ↔ (pid valid ∧ descriptor valid)`
fails on the code: when the reader thread exits (e.g. on hangup after the
child dies) it clears `m_running` but leaves `m_child_pid` and
`m_master_fd` untouched, giving a reachable state with both valid and the
flag false. -/
theorem C4_counterexample :
    QReach c4state ∧
    ¬ (c4state.m_running = true ↔
        (0 < c4state.m_child_pid ∧ 0 ≤ c4state.m_master_fd)) := by
  exact ⟨qreach_c4state, by decide⟩

/-- C4 (amended): in every reachable session state, if the running flag is
true then both the child pid and the master descriptor are valid (the
converse does not hold). -/
theorem C4_amended : ∀ s : ShellState, QReach s → s.m_running = true →
    0 < s.m_child_pid ∧ 0 ≤ s.m_master_fd := by
  intro s hs
  induction hs with
  | init => intro h; exact absurd h (by decide)
  | @step u t hr hstep ih =>
    cases hstep with
    | start cb forkRes newFd hfr hfd =>
      by_cases h1 : u.m_running = true
      · simpa [StartShell, h1] using ih
      · have h1' : u.m_running = false := by simpa using h1
        by_cases h2 : forkRes < 0
        · intro ht
          simp [StartShell, h1', h2] at ht
        · intro _
          have h3 : 0 < forkRes := by omega
          refine ⟨?_, ?_⟩
          · simpa [StartShell, h1', h2] using h3
          · simpa [StartShell, h1', h2] using hfd h3
    | stop a =>
      intro ht
      simp [stopShell_not_running u a] at ht
    | writeOp command wr a =>
      by_cases hg : u.m_running = false ∨ u.m_master_fd < 0
      · simpa [WriteToShell, hg] using ih
      · cases wr with
        | ok n => simpa [WriteToShell, hg] using ih
        | err e =>
          by_cases he : e ≠ EAGAIN ∧ e ≠ EWOULDBLOCK
          · intro ht
            rw [show (WriteToShell u command (WriteResult.err e) a).1 =
                (StopShell u a).1 from by simp [WriteToShell, hg, he]] at ht
            simp [stopShell_not_running u a] at ht
          · simpa [WriteToShell, hg, he] using ih
    | resize cols rows =>
      by_cases hg : u.m_running = false ∨ u.m_master_fd < 0 <;>
        simpa [NotifyResize, hg] using ih
    | reader events h =>
      intro ht
      simp [ReaderThreadFunc] at ht
    | winch =>
      simpa [SigwinchHandler] using ih

/-- C4 amended, exercised on the freshly started running session. -/
theorem C4_amended_witness :
    0 < runningS.m_child_pid ∧ 0 ≤ runningS.m_master_fd :=
  C4_amended runningS qreach_runningS (by decide)

theorem creach_cBad : CReach cBad := by
  have h1 : CReach (⟨true, false, false, 0, 1⟩ : CState) :=
    CReach.step CReach.init (CStep.readerTest cInit rfl rfl rfl)
  have h2 : CReach (⟨false, false, false, 1, 1⟩ : CState) :=
    CReach.step h1 (CStep.stopClear _ rfl rfl)
  have h3 : CReach (⟨false, false, false, 2, 1⟩ : CState) :=
    CReach.step h2 (CStep.stopChild _ rfl)
  exact CReach.step h3 (CStep.stopClose _ rfl)

/-- C3: the claim that no reachable execution closes the master descriptor
before the reader context has finished is refuted by the interleaving in
which the reader passes the `while (m_running)` test just before `stop()`
runs: `StopShell` closes the descriptor before joining the reader, reaching
a state where the descriptor is closed, the reader is not finished, and the
reader's next step still accesses the (closed) descriptor. -/
theorem C3_counterexample :
    CReach cBad ∧ cBad.fdClosed = true ∧ cBad.readerDone = false ∧
    CStep cBad { cBad with readerAt := 0 } :=
  ⟨creach_cBad, rfl, rfl, CStep.readerTouch cBad rfl rfl⟩

theorem cInvariant : ∀ s : CState, CReach s →
    (1 ≤ s.stopPc → s.running = false) ∧ (s.fdClosed = true → 3 ≤ s.stopPc) := by
  intro s hs
  induction hs with
  | init =>
    refine ⟨fun h => ?_, fun h => ?_⟩
    · simp [cInit] at h
    · simp [cInit] at h
  | @step u t hr hstep ih =>
    cases hstep with
    | stopClear h hr' =>
      exact ⟨fun _ => rfl, fun hf => by have h2 := ih.2 hf; omega⟩
    | stopChild h =>
      exact ⟨fun _ => ih.1 (by omega), fun hf => by have h2 := ih.2 hf; omega⟩
    | stopClose h =>
      exact ⟨fun _ => ih.1 (by omega), fun _ => Nat.le_refl 3⟩
    | stopJoin h hd =>
      exact ⟨fun _ => ih.1 (by omega), fun _ => Nat.le_succ 3⟩
    | readerTest h hd hr' => exact ih
    | readerTouch h hd => exact ih
    | readerExitStep h hd hr' => exact ih

/-- C3 (amended): what does hold is that the descriptor is only ever closed
after the running flag has been cleared; the reader context may still be
unfinished — and may still touch the descriptor — at that point, and the
join of the reader happens only after the close. -/
theorem C3_amended : ∀ s : CState, CReach s →
    s.fdClosed = true → s.running = false := by
  intro s hs hf
  have h := cInvariant s hs
  exact h.1 (by have h2 := h.2 hf; omega)

/-- C3 amended, exercised at the racy reachable state. -/
theorem C3_amended_witness : cBad.running = false :=
  C3_amended cBad creach_cBad rfl

theorem mem_sinkMsgs {effs : List Effect} {msg : String} :
    msg ∈ sinkMsgs effs ↔ Effect.sink msg ∈ effs := by
  unfold sinkMsgs
  rw [List.mem_filterMap]
  constructor
  · rintro ⟨e, he, hfe⟩
    cases e <;> simp_all
  · intro h
    exact ⟨Effect.sink msg, h, rfl⟩

theorem tagged_sinkMsgs_stop (s : ShellState) (a : Bool) :
    ∀ msg ∈ sinkMsgs (StopShell s a).2, Tagged msg := by
  intro msg hm
  rw [mem_sinkMsgs] at hm
  unfold StopShell at hm
  split at hm
  · simp at hm
  · by_cases h1 : 0 < s.m_child_pid <;> by_cases h2 : (0:Int) ≤ s.m_master_fd <;>
      by_cases h3 : s.readerJoinable = true <;>
      by_cases h4 : s.signalJoinable = true <;>
      by_cases h5 : s.m_callback = true <;> cases a <;>
      simp [h1, h2, h3, h4, h5] at hm <;>
      exact hm ▸ ⟨"[*] Shell terminated\n", by decide⟩

theorem tagged_sinkMsgs_start (s : ShellState) (cb : Bool) (forkRes newFd : Int) :
    ∀ msg ∈ sinkMsgs (StartShell s cb forkRes newFd).2, Tagged msg := by
  intro msg hm
  rw [mem_sinkMsgs] at hm
  unfold StartShell at hm
  split at hm
  · simp at hm
  · split at hm <;> cases cb <;> simp at hm
    · exact hm ▸ ⟨"[!] forkpty failed\n", by decide⟩
    · exact hm ▸ ⟨"[*] PTY shell started (bash/sh)\n", by decide⟩

theorem tagged_sinkMsgs_write (s : ShellState) (command : String)
    (wr : WriteResult) (a : Bool) :
    ∀ msg ∈ sinkMsgs (WriteToShell s command wr a).2, Tagged msg := by
  intro msg hm
  rw [mem_sinkMsgs] at hm
  by_cases hg : s.m_running = false ∨ s.m_master_fd < 0
  · simp [WriteToShell, hg] at hm
  · cases wr with
    | ok n => simp [WriteToShell, hg] at hm
    | err e =>
      by_cases he : e ≠ EAGAIN ∧ e ≠ EWOULDBLOCK
      · simp [WriteToShell, hg, he] at hm
        exact tagged_sinkMsgs_stop s a msg (mem_sinkMsgs.mpr hm)
      · simp [WriteToShell, hg, he] at hm

theorem tagged_sinkMsgs_resize (s : ShellState) (cols rows : Int) :
    ∀ msg ∈ sinkMsgs (NotifyResize s cols rows).2, Tagged msg := by
  intro msg hm
  rw [mem_sinkMsgs] at hm
  unfold NotifyResize at hm
  split at hm
  · simp at hm
  · by_cases h1 : 0 < s.m_child_pid <;> simp [h1] at hm

theorem tagged_sinkMsgs_readerLoop (s : ShellState) (events : List PollEvent) :
    ∀ msg ∈ sinkMsgs (ReaderLoopAux s events), Tagged msg := by
  induction events with
  | nil =>
    intro msg hm
    simp [ReaderLoopAux, sinkMsgs] at hm
  | cons ev rest ih =>
    intro msg hm
    rw [mem_sinkMsgs] at hm
    by_cases hr : s.m_running = false
    · simp [ReaderLoopAux, hr] at hm
    · cases ev with
      | perrIntr =>
        simp [ReaderLoopAux, hr] at hm
        exact ih msg (mem_sinkMsgs.mpr hm)
      | perrOther => simp [ReaderLoopAux, hr] at hm
      | timeout =>
        simp [ReaderLoopAux, hr] at hm
        exact ih msg (mem_sinkMsgs.mpr hm)
      | hupOrErr => simp [ReaderLoopAux, hr] at hm
      | readable r =>
        cases r with
        | eof => simp [ReaderLoopAux, hr] at hm
        | rerr e =>
          by_cases he : e = EAGAIN ∨ e = EWOULDBLOCK
          · simp [ReaderLoopAux, hr, he] at hm
            exact ih msg (mem_sinkMsgs.mpr hm)
          · simp [ReaderLoopAux, hr, he] at hm
        | chunk c =>
          by_cases hc : s.m_callback = true
          · simp [ReaderLoopAux, hr, hc] at hm
            rcases hm with h | h
            · subst h; exact ⟨c, rfl⟩
            · exact ih msg (mem_sinkMsgs.mpr h)
          · simp [ReaderLoopAux, hr, hc] at hm
            exact ih msg (mem_sinkMsgs.mpr hm)

theorem tagged_sinkMsgs_reader (s : ShellState) (events : List PollEvent) :
    ∀ msg ∈ sinkMsgs (ReaderThreadFunc s events).2, Tagged msg := by
  intro msg hm
  rw [mem_sinkMsgs] at hm
  unfold ReaderThreadFunc at hm
  simp at hm
  rcases hm with h | h
  · exact tagged_sinkMsgs_readerLoop s events msg (mem_sinkMsgs.mpr h)
  · by_cases hc : s.m_callback = true <;> simp [hc] at h
    exact h ▸ ⟨"[*] PTY closed\n", by decide⟩

/-- C5: no fixed literal prefix separates content chunks from lifecycle
notices: the source prepends the same tag `"ISHELL_OUTPUT:"` to both
categories, and a content chunk whose bytes are `"[*] Shell terminated\n"`
produces a sink string identical to the termination notice, so a prefix
present on all lifecycle notices is present on some content chunk and vice
versa. -/
theorem C5_counterexample : ¬ separatesByPrefixClaim := by
  have key : contentMsg "[*] Shell terminated\n" = terminatedNotice := by decide
  have hmem : terminatedNotice ∈ lifecycleNotices := by simp [lifecycleNotices]
  rintro (⟨p, h1, h2⟩ | ⟨p, h1, h2⟩ | ⟨p1, p2, hne, h1, h2, h3 | h3⟩)
  · exact h2 "[*] Shell terminated\n" (by rw [key]; exact h1 terminatedNotice hmem)
  · exact h2 terminatedNotice hmem (by rw [← key]; exact h1 "[*] Shell terminated\n")
  · exact h3 "[*] Shell terminated\n" (by rw [key]; exact h1 terminatedNotice hmem)
  · exact h3 terminatedNotice hmem (by rw [← key]; exact h2 "[*] Shell terminated\n")

/-- C5 (amended): every string any operation delivers to the sink — content
chunk or lifecycle notice — carries the same fixed literal tag
`"ISHELL_OUTPUT:"`; the tag therefore separates manager output from other
text but not the two categories from each other, since a content chunk can
be byte-identical to a lifecycle notice. -/
theorem C5_amended (s : ShellState) (cb : Bool) (forkRes newFd : Int)
    (command : String) (wr : WriteResult) (a : Bool) (cols rows : Int)
    (events : List PollEvent) (msg : String)
    (h : msg ∈ sinkMsgs (StartShell s cb forkRes newFd).2 ∨
         msg ∈ sinkMsgs (StopShell s a).2 ∨
         msg ∈ sinkMsgs (WriteToShell s command wr a).2 ∨
         msg ∈ sinkMsgs (NotifyResize s cols rows).2 ∨
         msg ∈ sinkMsgs (ReaderThreadFunc s events).2) :
    Tagged msg ∧ contentMsg "[*] Shell terminated\n" = terminatedNotice := by
  refine ⟨?_, by decide⟩
  rcases h with h | h | h | h | h
  · exact tagged_sinkMsgs_start s cb forkRes newFd msg h
  · exact tagged_sinkMsgs_stop s a msg h
  · exact tagged_sinkMsgs_write s command wr a msg h
  · exact tagged_sinkMsgs_resize s cols rows msg h
  · exact tagged_sinkMsgs_reader s events msg h

/-- C5 amended, exercised on the termination notice emitted by a concrete
`StopShell`. -/
theorem C5_amended_witness :
    Tagged terminatedNotice ∧
    contentMsg "[*] Shell terminated\n" = terminatedNotice := by
  have h := C5_amended runningS true 5 3 "ls" (WriteResult.ok 0) true 120 40 []
    terminatedNotice (Or.inr (Or.inl (by decide)))
  exact h

/-- C10, exercised at `NotifyResize(120, 40)` on the running session. -/
theorem C10_resize_witness :
    (NotifyResize runningS 120 40).1.m_cols = 120 ∧
    (NotifyResize runningS 120 40).2.head? =
      some (Effect.setWinsize 3 (ushortOfInt 120) (ushortOfInt 40)) ∧
    (ushortOfInt 120 : Int) = 120 := by
  have h := C10_resize runningS 120 40 (by decide) (by decide)
  exact ⟨h.1, by simpa using h.2.2.1, h.2.2.2.2.2.1 (by decide) (by decide)⟩

end shell
